import Mathlib

/-!
Verification of the dynamic-forms schema engine (Dynamic-Forms-MERN).

This file shallowly embeds the backend's schema compiler, dynamic route
registry and CRUD handlers.  The repository contains several server
variants; we embed the two that the claims cite:

* `src/unnamed/part_001` — the full-featured server (validating schema
  update handler, required-field validation on create, in-memory list
  with search and sort, sample-data seeding).  Definitions from this
  variant carry the suffix `_p1`.
* `src/backend/server.js` — the plain server (first half of the file)
  and the dual-backend server (second half).  Definitions from these
  carry the suffix `_srv` (memory paths) and `_mongo` (Mongo paths).

JavaScript objects are embedded as association lists with
first-match lookup; object spread is embedded by `Obj.merge`, which
realises the key-for-key override semantics of `{...a, ...b}`.
-/

/-- JavaScript `s.toLowerCase()`, character by character. -/
def lowerStr (s : String) : String := String.mk (s.data.map Char.toLower)

/-- JavaScript `s.trim()`: strip leading and trailing whitespace. -/
def trimStr (s : String) : String :=
  String.mk (((s.data.dropWhile Char.isWhitespace).reverse.dropWhile
    Char.isWhitespace).reverse)

/-- Character comparison by code point. -/
def charLt (a b : Char) : Bool := decide (a < b)

/-- Lexicographic comparison of character sequences. -/
def listLtB : List Char → List Char → Bool
  | [], [] => false
  | [], _ :: _ => true
  | _ :: _, [] => false
  | a :: as, b :: bs =>
    if charLt a b then true
    else if charLt b a then false
    else listLtB as bs

/-- JavaScript `<` on strings: lexicographic comparison of the
character sequences by code point. -/
def strLt (a b : String) : Bool := listLtB a.data b.data

/-- A JSON-ish JavaScript value, covering the value forms the backend
stores in records: strings, (integer) numbers, booleans and null. -/
inductive JValue where
  | str : String → JValue
  | num : Int → JValue
  | bool : Bool → JValue
  | null : JValue
deriving DecidableEq, Repr

/-- JavaScript truthiness of a value (`!v` is `!truthy v`). -/
def JValue.truthy : JValue → Bool
  | .str s => !(s == "")
  | .num n => !(n == 0)
  | .bool b => b
  | .null => false

/-- `String(v)`: the JavaScript string rendering of a value. -/
def JValue.render : JValue → String
  | .str s => s
  | .num n => toString n
  | .bool b => if b then "true" else "false"
  | .null => "null"

/-- JavaScript `ToNumber` on the embedded value forms (`none` is NaN).
String parsing covers the integer-literal strings representable here:
a blank string converts to 0, other strings to their integer value or
NaN. -/
def JValue.toNumOpt : JValue → Option Int
  | .num n => some n
  | .bool b => some (if b then 1 else 0)
  | .null => some 0
  | .str s => if trimStr s == "" then some 0 else (trimStr s).toInt?

/-- The numeric arm of JavaScript `<`: both sides converted with
`ToNumber` and compared; any NaN makes the comparison false. -/
def jsNumLt (a b : JValue) : Bool :=
  match a.toNumOpt, b.toNumOpt with
  | some m, some n => decide (m < n)
  | _, _ => false

/-- JavaScript `<` on the embedded value forms: string–string compares
lexicographically, every other pairing compares numerically. -/
def jsLt (a b : JValue) : Bool :=
  match a, b with
  | .str x, .str y => strLt x y
  | _, _ => jsNumLt a b

/-- A JavaScript object: association list of field name to value. -/
abbrev Obj := List (String × JValue)

/-- Property lookup `o[k]` (`none` is `undefined`). -/
def Obj.get : Obj → String → Option JValue
  | [], _ => none
  | p :: rest, k => if p.1 = k then some p.2 else Obj.get rest k

/-- Object spread `{...a, ...b}`: keys of `b` override keys of `a`. -/
def Obj.merge (a b : Obj) : Obj :=
  a.filter (fun p => (Obj.get b p.1).isNone) ++ b

/-- Property assignment `o[k] = v`. -/
def Obj.set (o : Obj) (k : String) (v : JValue) : Obj :=
  (k, v) :: o.filter (fun p => !(p.1 == k))

theorem Obj.get_merge (a b : Obj) (k : String) :
    Obj.get (Obj.merge a b) k =
      match Obj.get b k with
      | some v => some v
      | none => Obj.get a k := by
  induction a with
  | nil =>
    simp only [Obj.merge, List.filter_nil, List.nil_append]
    cases h : Obj.get b k <;> simp [Obj.get]
  | cons p a ih =>
    simp only [Obj.merge] at ih ⊢
    by_cases hp : (Obj.get b p.1).isNone
    · rw [List.filter_cons_of_pos (by simpa using hp)]
      by_cases hk : p.1 = k
      · subst hk
        rw [Option.isNone_iff_eq_none] at hp
        simp [Obj.get, hp]
      · cases hbk : Obj.get b k <;> simp_all [Obj.get, hk]
    · rw [List.filter_cons_of_neg (by simpa using hp)]
      cases hbk : Obj.get b k
      · simp only [hbk] at ih ⊢
        rw [ih]
        have hkp : ¬ p.1 = k := by
          intro h
          subst h
          simp [Option.isNone_iff_eq_none, hbk] at hp
        simp [Obj.get, hkp]
      · simp only [hbk] at ih ⊢
        exact ih

/-! ## Schema configuration (the schema document's data model) -/

/-- One field of an entity's `backend.schema` block:
`{ type, required, unique, default }`. -/
structure BackendField where
  ftype : String
  required : Bool
  unique : Bool
  dflt : Option JValue
deriving DecidableEq, Repr

/-- An entity's `backend` block; `schema` may be absent. -/
structure BackendConfig where
  schema : Option (List (String × BackendField))
deriving DecidableEq, Repr

/-- One entity's configuration in the schema document: `route`,
`backend` and `frontend.fields` (of the frontend block only presence
and the field names matter to the backend, so it is embedded as the
list of field names). `none` models an absent property. -/
structure EntityConfig where
  route : Option String
  backend : Option BackendConfig
  frontendFields : Option (List String)
deriving DecidableEq, Repr

/-- JavaScript truthiness of `config.route`. -/
def routeTruthy : Option String → Bool
  | none => false
  | some s => !(s == "")

/-- `config.backend && config.backend.schema`: the backend schema when
both are present. -/
def cfgSchemaOf (cfg : EntityConfig) : Option (List (String × BackendField)) :=
  cfg.backend.bind (fun b => b.schema)

/-- The names of the fields marked `required` in a backend schema
(part_001 `requiredFields`). -/
def requiredFieldsOf (schema : List (String × BackendField)) : List String :=
  (schema.filter (fun p => p.2.required)).map (fun p => p.1)

/-- The names of the fields declared with type `String` in a backend
schema (`stringFields` of the dual-backend server's Mongo search). -/
def stringFieldsOf (schema : List (String × BackendField)) : List String :=
  (schema.filter (fun p => p.2.ftype == "String")).map (fun p => p.1)

/-! ## Field type resolution (schema compiler, claim C2) -/

/-- The five field kinds the schema compiler recognizes. -/
def recognizedKinds : List String := ["String", "Number", "Boolean", "Date", "Array"]

/-- The `switch (fieldConfig.type)` of `createDynamicModel` in
`src/backend/server.js`: maps a declared type name to the storage type
it compiles to. The `default:` arm of the switch maps every
unrecognized type name to `String`. -/
def resolveFieldType (t : String) : String :=
  match t with
  | "String" => "String"
  | "Number" => "Number"
  | "Boolean" => "Boolean"
  | "Date" => "Date"
  | "Array" => "Array"
  | _ => "String"

/-- The field-type resolution of `createModel` in
`src/unnamed/part_000`: the field definition starts as
`{ type: String }` and is overridden only for the four other
recognized names, so unrecognized names keep the `String` storage
type. -/
def resolveFieldType_p0 (t : String) : String :=
  if t == "Number" then "Number"
  else if t == "Boolean" then "Boolean"
  else if t == "Date" then "Date"
  else if t == "Array" then "Array"
  else "String"

/-! ## Record construction (create and update handlers) -/

/-- The record built by the POST handlers:
`{ _id: generatedId, ...req.body, createdAt: now, updatedAt: now }`.
The id literal precedes the body spread (so a body `_id` overrides
it); the timestamps follow the spread (so they override body values). -/
def createItem (genId now : String) (body : Obj) : Obj :=
  Obj.merge (Obj.merge [("_id", JValue.str genId)] body)
    [("createdAt", JValue.str now), ("updatedAt", JValue.str now)]

/-- The record built by the PUT handlers:
`{ ...items[index], ...req.body, updatedAt: now }`. -/
def updateItem (now : String) (old body : Obj) : Obj :=
  Obj.merge (Obj.merge old body) [("updatedAt", JValue.str now)]

theorem createItem_get (genId now : String) (body : Obj) (k : String) :
    Obj.get (createItem genId now body) k =
      if k = "createdAt" then some (JValue.str now)
      else if k = "updatedAt" then some (JValue.str now)
      else
        match Obj.get body k with
        | some v => some v
        | none => if k = "_id" then some (JValue.str genId) else none := by
  unfold createItem
  rw [Obj.get_merge, Obj.get_merge]
  by_cases hc : k = "createdAt"
  · subst hc; simp [Obj.get]
  · by_cases hu : k = "updatedAt"
    · subst hu
      have h1 : ("createdAt" : String) ≠ "updatedAt" := by decide
      simp [Obj.get, h1]
    · have h1 : ("createdAt" : String) ≠ k := Ne.symm hc
      have h2 : ("updatedAt" : String) ≠ k := Ne.symm hu
      have hts : Obj.get [("createdAt", JValue.str now), ("updatedAt", JValue.str now)] k = none := by
        simp [Obj.get, h1, h2]
      rw [hts]
      by_cases hi : k = "_id"
      · subst hi
        cases hb : Obj.get body "_id" <;> simp [Obj.get, hb, hc, hu]
      · have h3 : ("_id" : String) ≠ k := Ne.symm hi
        cases hb : Obj.get body k <;> simp [Obj.get, hb, hc, hu, hi, h3]

theorem updateItem_get (now : String) (old body : Obj) (k : String) :
    Obj.get (updateItem now old body) k =
      if k = "updatedAt" then some (JValue.str now)
      else
        match Obj.get body k with
        | some v => some v
        | none => Obj.get old k := by
  unfold updateItem
  rw [Obj.get_merge, Obj.get_merge]
  by_cases hu : k = "updatedAt"
  · subst hu; simp [Obj.get]
  · have h1 : ("updatedAt" : String) ≠ k := Ne.symm hu
    have hts : Obj.get [("updatedAt", JValue.str now)] k = none := by
      simp [Obj.get, h1]
    rw [hts]
    cases hb : Obj.get body k <;> simp [hb, hu]

/-! ## Search (list handlers, claim C3) -/

/-- JavaScript `hay.includes(needle)`: contiguous-substring test. -/
def strContains (hay needle : String) : Bool :=
  decide (List.IsInfix needle.toList hay.toList)

/-- The memory-search predicate of `src/backend/server.js`:
`Object.values(item).some(val => String(val).toLowerCase().includes(searchLower))`. -/
def matchesSearch_srv (searchLower : String) (item : Obj) : Bool :=
  item.any (fun p => strContains (lowerStr (JValue.render p.2)) searchLower)

/-- The memory-search predicate of `src/unnamed/part_001`: as the plain
server's, but a falsy value never matches
(`val && String(val).toLowerCase().includes(searchLower)`). -/
def matchesSearch_p1 (searchLower : String) (item : Obj) : Bool :=
  item.any (fun p =>
    JValue.truthy p.2 && strContains (lowerStr (JValue.render p.2)) searchLower)

/-- The list filter of `src/backend/server.js` (memory path):
applied only when `search` is truthy. -/
def filterSearch_srv (search : String) (items : List Obj) : List Obj :=
  if search == "" then items
  else items.filter (matchesSearch_srv (lowerStr search))

/-- The list filter of `src/unnamed/part_001`: applied only when
`search && search.trim()` is truthy; the needle is the untrimmed
lower-cased search term. -/
def filterSearch_p1 (search : String) (items : List Obj) : List Obj :=
  if search == "" || trimStr search == "" then items
  else items.filter (matchesSearch_p1 (lowerStr search))

/-- The Mongo search of the dual-backend `src/backend/server.js`
variant: a `$or` of case-insensitive substring regexes over the
String-declared fields. An empty search, or an entity with no
String-declared fields, leaves the query empty, which matches every
record. A `$regex` condition only matches string-valued fields. -/
def mongoQueryMatches (schema : List (String × BackendField)) (search : String)
    (item : Obj) : Bool :=
  if search == "" then true
  else
    let sf := stringFieldsOf schema
    if 0 < sf.length then
      sf.any (fun f =>
        match Obj.get item f with
        | some (JValue.str s) => strContains (lowerStr s) (lowerStr search)
        | _ => false)
    else true

/-! ## Sort (part_001 list handler, claim C7) -/

/-- The sort key `a[sortBy] || ""` of part_001's comparator: the
field's value when truthy, the empty string otherwise (also when the
field is absent). -/
def sortKeyVal (sortBy : String) (item : Obj) : JValue :=
  match Obj.get item sortBy with
  | some v => if JValue.truthy v then v else JValue.str ""
  | none => JValue.str ""

/-- `const order = sortOrder === "desc" ? -1 : 1`. -/
def orderSign (sortOrder : String) : Int :=
  if sortOrder == "desc" then -1 else 1

/-- part_001's sort comparator: `-1 * order` when `aVal < bVal`,
`1 * order` when `aVal > bVal`, `0` otherwise. -/
def itemCompare (sortBy sortOrder : String) (a b : Obj) : Int :=
  let av := sortKeyVal sortBy a
  let bv := sortKeyVal sortBy b
  if jsLt av bv then -1 * orderSign sortOrder
  else if jsLt bv av then 1 * orderSign sortOrder
  else 0

/-- Insert an element into an already-sorted list, after every element
the comparator places before-or-equal to it. -/
def insertSorted {α : Type} (cmp : α → α → Int) (x : α) : List α → List α
  | [] => [x]
  | y :: ys => if 0 < cmp x y then y :: insertSorted cmp x ys else x :: y :: ys

/-- The semantics of `Array.prototype.sort` with a consistent
comparator: a stable comparison sort (ECMAScript requires sort
stability), realised as an insertion sort that keeps equal-comparing
elements in their original relative order. -/
def stableSort {α : Type} (cmp : α → α → Int) : List α → List α
  | [] => []
  | x :: xs => insertSorted cmp x (stableSort cmp xs)

/-- `filteredItems.sort(comparator)` of part_001's list handler. -/
def sortItems (sortBy sortOrder : String) (items : List Obj) : List Obj :=
  stableSort (itemCompare sortBy sortOrder) items

/-! ## The list endpoint of part_001 -/

/-- Query parameters of the list endpoint with their part_001
destructuring defaults (`page = 1, limit = 10, search = "",
sortBy = "createdAt", sortOrder = "desc"`). -/
structure ListParams where
  page : Nat
  limit : Nat
  search : String
  sortBy : String
  sortOrder : String
deriving DecidableEq, Repr

def defaultListParams : ListParams := ⟨1, 10, "", "createdAt", "desc"⟩

structure Pagination where
  total : Nat
  page : Nat
  limit : Nat
  totalPages : Nat
deriving DecidableEq, Repr

structure ListOut where
  data : List Obj
  pag : Pagination
deriving DecidableEq, Repr

/-- part_001's GET `/` handler over an entity's collection: filter by
search, sort in place, then `slice((page-1)*limit, page*limit)`;
`pagination.total` is the filtered length before pagination, and
`totalPages` is `Math.ceil(total / limit)` (for a positive limit). -/
def listCall_p1 (items : List Obj) (p : ListParams) : ListOut :=
  let filtered := filterSearch_p1 p.search items
  let sorted := sortItems p.sortBy p.sortOrder filtered
  let start := (p.page - 1) * p.limit
  let stop := p.page * p.limit
  ⟨(sorted.drop start).take (stop - start),
   ⟨sorted.length, p.page, p.limit, (sorted.length + p.limit - 1) / p.limit⟩⟩

/-! ## Create, update, delete handlers (claims C4, C5, C6, C8, C10) -/

/-- JavaScript truthiness of `item[f]` (`false` also when absent). -/
def truthyAt (item : Obj) (f : String) : Bool :=
  match Obj.get item f with
  | some v => JValue.truthy v
  | none => false

/-- The 400 message of part_001's create handler:
`"Missing required fields: " + missingFields.join(", ")`. -/
def missingMsg (missing : List String) : String :=
  "Missing required fields: " ++ String.intercalate ", " missing

structure CreateOut where
  status : Nat
  item : Option Obj
  missing : List String
  error : Option String
  store : List Obj
deriving DecidableEq, Repr

/-- part_001's POST `/` handler: builds the new record, and when the
entity has a backend schema, rejects with 400 if any required field of
the built record is absent or falsy (`!newItem[field]`), without
touching the store; otherwise appends the record. -/
def createCall_p1 (cfg : EntityConfig) (genId now : String) (store : List Obj)
    (body : Obj) : CreateOut :=
  let newItem := createItem genId now body
  match cfgSchemaOf cfg with
  | some schema =>
    let missing := (requiredFieldsOf schema).filter (fun f => !truthyAt newItem f)
    if 0 < missing.length then
      ⟨400, none, missing, some (missingMsg missing), store⟩
    else
      ⟨201, some newItem, [], none, store ++ [newItem]⟩
  | none => ⟨201, some newItem, [], none, store ++ [newItem]⟩

/-- The POST `/` handler of `src/backend/server.js` (both the plain
and the dual-backend memory path): builds the record and appends it;
no required-field validation of any kind. -/
def createCall_srv (genId now : String) (store : List Obj) (body : Obj) : CreateOut :=
  let newItem := createItem genId now body
  ⟨201, some newItem, [], none, store ++ [newItem]⟩

structure UpdateOut where
  status : Nat
  item : Option Obj
  store : List Obj
deriving DecidableEq, Repr

/-- `findIndex` on `_id` followed by in-place replacement with the
merged record: returns the merged record and the updated store, or
`none` when no record has the id. -/
def updateFirst (now id : String) (body : Obj) : List Obj → Option (Obj × List Obj)
  | [] => none
  | i :: rest =>
    if Obj.get i "_id" = some (JValue.str id) then
      let ni := updateItem now i body
      some (ni, ni :: rest)
    else
      match updateFirst now id body rest with
      | some (ni, rest2) => some (ni, i :: rest2)
      | none => none

/-- The PUT `/:id` handler (identical in part_001 and in the server.js
memory paths): 404 when the id is not found, else replace the record
in place with the shallow merge `{...old, ...req.body, updatedAt}`. -/
def updateCall (now : String) (store : List Obj) (id : String) (body : Obj) : UpdateOut :=
  match updateFirst now id body store with
  | some (ni, store2) => ⟨200, some ni, store2⟩
  | none => ⟨404, none, store⟩

/-- The DELETE `/:id` handler (identical in part_001 and in the
server.js memory paths): filter out the id; 404 when nothing was
filtered out (store untouched), else 200 with the filtered store. -/
def deleteCall (store : List Obj) (id : String) : Nat × List Obj :=
  let filtered := store.filter (fun i => !(Obj.get i "_id" == some (JValue.str id)))
  if filtered.length = store.length then (404, store)
  else (200, filtered)

/-! ## Route registry and sample seeding (claims C1, C9) -/

/-- `memoryStore[entityName]` (`none` is `undefined`). -/
def lookupStore : List (String × List Obj) → String → Option (List Obj)
  | [], _ => none
  | p :: rest, name => if p.1 = name then some p.2 else lookupStore rest name

/-- `memoryStore[entityName] = items`. -/
def setStore (ms : List (String × List Obj)) (name : String)
    (items : List Obj) : List (String × List Obj) :=
  (name, items) :: ms.filter (fun p => !(p.1 == name))

/-- The sample record part_001's seeding builds before schema-driven
fields are added: `_id`, `name`, `description` and the timestamps. -/
def sampleBase (name now : String) (i : Nat) : Obj :=
  [("_id", JValue.str ("sample_" ++ name ++ "_" ++ toString i)),
   ("name", JValue.str ("Sample " ++ name ++ " " ++ toString i)),
   ("description", JValue.str ("This is a sample " ++ name ++ " item")),
   ("createdAt", JValue.str now),
   ("updatedAt", JValue.str now)]

/-- One step of the schema-driven field fill of a sample record: a
field not already truthy on the record is assigned a value chosen by
its declared type; unrecognized types add nothing. -/
def addSampleField (i : Nat) (now : String) (item : Obj) (f : String × BackendField) : Obj :=
  if truthyAt item f.1 then item
  else if f.2.ftype == "String" then Obj.set item f.1 (JValue.str ("Sample " ++ f.1))
  else if f.2.ftype == "Number" then Obj.set item f.1 (JValue.num ((i : Int) * 10))
  else if f.2.ftype == "Boolean" then Obj.set item f.1 (JValue.bool true)
  else if f.2.ftype == "Date" then Obj.set item f.1 (JValue.str now)
  else item

/-- The three sample records (`i = 1, 2, 3`) part_001 seeds into a new
entity's collection. -/
def samples (name : String) (cfg : EntityConfig) (now : String) : List Obj :=
  [1, 2, 3].map (fun i =>
    match cfgSchemaOf cfg with
    | some schema => schema.foldl (addSampleField i now) (sampleBase name now i)
    | none => sampleBase name now i)

structure RegAcc where
  routes : List (String × String)
  ms : List (String × List Obj)
deriving DecidableEq, Repr

/-- The body of part_001's `registerAllRoutes` loop for one entity:
entities without a truthy route are skipped; otherwise the route is
recorded and, when the entity's collection is absent or empty, the
three sample records are seeded into it. -/
def registerStep_p1 (now : String) (acc : RegAcc) (e : String × EntityConfig) : RegAcc :=
  if routeTruthy e.2.route then
    ⟨acc.routes ++ [(e.1, e.2.route.getD "")],
     match lookupStore acc.ms e.1 with
     | some (_ :: _) => acc.ms
     | _ => setStore acc.ms e.1 (samples e.1 e.2 now)⟩
  else acc

/-- part_001's `registerAllRoutes`: clears the active route set, then
registers every entity of the schema in order. -/
def registerAllRoutes_p1 (now : String) (entries : List (String × EntityConfig))
    (ms : List (String × List Obj)) : RegAcc :=
  entries.foldl (registerStep_p1 now) ⟨[], ms⟩

/-- The observable server state the schema-update endpoints act on:
the current schema document (its `record` entries), the active route
set, and the in-memory store. -/
structure ServerState where
  currentSchema : List (String × EntityConfig)
  activeRoutes : List (String × String)
  memoryStore : List (String × List Obj)
deriving DecidableEq, Repr

/-- The body of a POST `/api/schema/update` request: `malformed`
models a body whose `record` member is missing or not an object. -/
inductive UpdateBody where
  | malformed : UpdateBody
  | record : List (String × EntityConfig) → UpdateBody
deriving DecidableEq, Repr

structure UpdateResponse where
  status : Nat
  success : Bool
deriving DecidableEq, Repr

/-- part_001's per-entity validation of a schema update: route present
and truthy, route starting with `/`, backend schema present, frontend
fields present.  The handler throws at the first entity violating any
of these. -/
def validEntity_p1 (cfg : EntityConfig) : Bool :=
  routeTruthy cfg.route &&
  (cfg.route.getD "").startsWith "/" &&
  (cfgSchemaOf cfg).isSome &&
  cfg.frontendFields.isSome

/-- part_001's POST `/api/schema/update`: validates the body shape and
every entity; a thrown validation error is caught before any state was
touched, so the previous schema, route set and store stay in effect.
On success the schema is replaced and all routes re-registered. -/
def schemaUpdate_p1 (now : String) (st : ServerState) (body : UpdateBody) :
    ServerState × UpdateResponse :=
  match body with
  | .malformed => (st, ⟨400, false⟩)
  | .record entries =>
    if entries.all (fun e => validEntity_p1 e.2) then
      let acc := registerAllRoutes_p1 now entries st.memoryStore
      (⟨entries, acc.routes, acc.ms⟩, ⟨200, true⟩)
    else (st, ⟨400, false⟩)

/-- The route registration of `src/backend/server.js`: an entity is
skipped (with only a console warning) unless `config.route` and
`config.backend` are truthy; there is no per-entity validation error. -/
def routes_srv (entries : List (String × EntityConfig)) : List (String × String) :=
  entries.foldl (fun acc e =>
    if routeTruthy e.2.route && e.2.backend.isSome then
      acc ++ [(e.1, e.2.route.getD "")]
    else acc) []

/-- `src/backend/server.js`'s POST `/api/schema/update`: after the
body-shape check it unconditionally replaces the current schema and
re-registers routes, skipping invalid entities silently. -/
def schemaUpdate_srv (st : ServerState) (body : UpdateBody) :
    ServerState × UpdateResponse :=
  match body with
  | .malformed => (st, ⟨400, false⟩)
  | .record entries => (⟨entries, routes_srv entries, st.memoryStore⟩, ⟨200, true⟩)

/-! ## Supporting lemmas -/

theorem charLt_asymm (a b : Char) (h : charLt a b = true) : charLt b a = false := by
  unfold charLt at h ⊢
  rw [decide_eq_true_eq] at h
  exact decide_eq_false (lt_asymm h)

theorem charLt_irrefl (a : Char) : charLt a a = false := by
  unfold charLt
  exact decide_eq_false (lt_irrefl a)

theorem listLtB_asymm (x y : List Char) (h : listLtB x y = true) :
    listLtB y x = false := by
  induction x generalizing y with
  | nil =>
    cases y with
    | nil => simp [listLtB] at h
    | cons b bs => simp [listLtB]
  | cons a as ih =>
    cases y with
    | nil => simp [listLtB] at h
    | cons b bs =>
      by_cases hab : charLt a b = true
      · have hba := charLt_asymm a b hab
        simp [listLtB, hab, hba]
      · have hab2 : charLt a b = false := by
          cases hq : charLt a b
          · rfl
          · exact absurd hq hab
        by_cases hba : charLt b a = true
        · simp [listLtB, hab2, hba] at h
        · have hba2 : charLt b a = false := by
            cases hq : charLt b a
            · rfl
            · exact absurd hq hba
          simp [listLtB, hab2, hba2] at h ⊢
          exact ih bs h

theorem listLtB_irrefl (x : List Char) : listLtB x x = false := by
  induction x with
  | nil => rfl
  | cons a as ih => simp [listLtB, charLt_irrefl, ih]

theorem strLt_asymm (a b : String) (h : strLt a b = true) : strLt b a = false :=
  listLtB_asymm a.data b.data h

theorem strLt_irrefl (a : String) : strLt a a = false := listLtB_irrefl a.data

theorem jsNumLt_asymm (a b : JValue) (h : jsNumLt a b = true) : jsNumLt b a = false := by
  unfold jsNumLt at h ⊢
  cases ha : JValue.toNumOpt a <;> cases hb : JValue.toNumOpt b <;>
    simp [ha, hb] at h ⊢
  omega

theorem jsNumLt_irrefl (a : JValue) : jsNumLt a a = false := by
  unfold jsNumLt
  cases ha : JValue.toNumOpt a <;> simp [ha]

theorem jsLt_asymm (a b : JValue) (h : jsLt a b = true) : jsLt b a = false := by
  cases a <;> cases b <;>
    simp only [jsLt] at h ⊢ <;>
    first
    | (exact jsNumLt_asymm _ _ h)
    | (exact strLt_asymm _ _ h)

theorem jsLt_irrefl (a : JValue) : jsLt a a = false := by
  cases a <;> simp only [jsLt] <;>
    first
    | (exact jsNumLt_irrefl _)
    | (exact strLt_irrefl _)

theorem itemCompare_eq_zero_of_key_eq (sortBy sortOrder : String) (a b : Obj)
    (h : sortKeyVal sortBy a = sortKeyVal sortBy b) :
    itemCompare sortBy sortOrder a b = 0 := by
  simp [itemCompare, h, jsLt_irrefl]

theorem itemCompare_asymm (sortBy sortOrder : String) (a b : Obj)
    (h : 0 < itemCompare sortBy sortOrder a b) :
    itemCompare sortBy sortOrder b a ≤ 0 := by
  unfold itemCompare orderSign at h ⊢
  by_cases h1 : jsLt (sortKeyVal sortBy a) (sortKeyVal sortBy b) = true
  · have h1' := jsLt_asymm _ _ h1
    by_cases hd : (sortOrder == "desc") = true <;>
      simp [h1, h1', hd] at h ⊢
  · have h1' : jsLt (sortKeyVal sortBy a) (sortKeyVal sortBy b) = false :=
      Bool.eq_false_iff.mpr (fun hq => h1 hq)
    by_cases h2 : jsLt (sortKeyVal sortBy b) (sortKeyVal sortBy a) = true
    · have h2' := jsLt_asymm _ _ h2
      by_cases hd : (sortOrder == "desc") = true <;>
        simp [h1', h2, h2', hd] at h ⊢
    · have h2' : jsLt (sortKeyVal sortBy b) (sortKeyVal sortBy a) = false :=
        Bool.eq_false_iff.mpr (fun hq => h2 hq)
      simp [h1', h2'] at h

theorem insertSorted_length {α : Type} (cmp : α → α → Int) (x : α) (l : List α) :
    (insertSorted cmp x l).length = l.length + 1 := by
  induction l with
  | nil => rfl
  | cons y ys ih =>
    by_cases h : 0 < cmp x y <;> simp [insertSorted, h, ih]

theorem stableSort_length {α : Type} (cmp : α → α → Int) (l : List α) :
    (stableSort cmp l).length = l.length := by
  induction l with
  | nil => rfl
  | cons x xs ih => simp [stableSort, insertSorted_length, ih]

theorem filter_insertSorted {α : Type} (cmp : α → α → Int) (p : α → Bool) (x : α)
    (l : List α) (h : ∀ b, p x = true → p b = true → cmp x b ≤ 0) :
    (insertSorted cmp x l).filter p = if p x then x :: l.filter p else l.filter p := by
  induction l with
  | nil =>
    by_cases hpx : p x = true <;> simp [insertSorted, List.filter, hpx]
  | cons y ys ih =>
    by_cases hxy : 0 < cmp x y
    · simp only [insertSorted, if_pos hxy]
      by_cases hpy : p y = true
      · have hpx : p x = false := by
          by_contra hc
          have hx : p x = true := by
            cases hq : p x
            · exact absurd hq hc
            · rfl
          have := h y hx hpy
          omega
        rw [List.filter_cons_of_pos hpy, ih, List.filter_cons_of_pos hpy]
        simp [hpx]
      · have hpy' : p y = false := by
          cases hq : p y
          · rfl
          · exact absurd hq hpy
        rw [List.filter_cons_of_neg (by simp [hpy']), ih,
          List.filter_cons_of_neg (by simp [hpy'])]
    · simp only [insertSorted, if_neg hxy]
      by_cases hpx : p x = true <;>
        simp [List.filter_cons, hpx]

theorem stableSort_filter {α : Type} (cmp : α → α → Int) (p : α → Bool) (l : List α)
    (h : ∀ a b, p a = true → p b = true → cmp a b ≤ 0) :
    (stableSort cmp l).filter p = l.filter p := by
  induction l with
  | nil => rfl
  | cons x xs ih =>
    simp only [stableSort]
    rw [filter_insertSorted cmp p x _ (fun b hx hb => h x b hx hb)]
    by_cases hpx : p x = true <;> simp [List.filter_cons, hpx, ih]

theorem chain'_insertSorted {α : Type} (cmp : α → α → Int) (x : α) (l : List α)
    (hasym : ∀ a b : α, 0 < cmp a b → cmp b a ≤ 0)
    (hl : List.Chain' (fun a b => cmp a b ≤ 0) l) :
    List.Chain' (fun a b => cmp a b ≤ 0) (insertSorted cmp x l) := by
  induction l with
  | nil => simp [insertSorted]
  | cons y ys ih =>
    by_cases hxy : 0 < cmp x y
    · simp only [insertSorted, if_pos hxy]
      have hins := ih hl.tail
      rw [List.chain'_cons']
      refine ⟨?_, hins⟩
      intro b hb
      cases ys with
      | nil =>
        simp [insertSorted] at hb
        subst hb
        exact hasym x y hxy
      | cons z zs =>
        by_cases hxz : 0 < cmp x z
        · simp [insertSorted, if_pos hxz] at hb
          subst hb
          exact (List.chain'_cons.mp hl).1
        · simp [insertSorted, if_neg hxz] at hb
          subst hb
          exact hasym x y hxy
    · simp only [insertSorted, if_neg hxy]
      rw [List.chain'_cons']
      refine ⟨?_, hl⟩
      intro b hb
      simp at hb
      subst hb
      omega

theorem chain'_stableSort {α : Type} (cmp : α → α → Int) (l : List α)
    (hasym : ∀ a b : α, 0 < cmp a b → cmp b a ≤ 0) :
    List.Chain' (fun a b => cmp a b ≤ 0) (stableSort cmp l) := by
  induction l with
  | nil => simp [stableSort]
  | cons x xs ih => exact chain'_insertSorted cmp x _ hasym ih

theorem length_filter_eq_length_iff {α : Type} (p : α → Bool) (l : List α) :
    (l.filter p).length = l.length ↔ ∀ a ∈ l, p a = true := by
  induction l with
  | nil => simp
  | cons x xs ih =>
    by_cases hx : p x = true
    · rw [List.filter_cons_of_pos hx]
      simp [hx, ih]
    · rw [List.filter_cons_of_neg hx]
      have hle := List.length_filter_le p xs
      constructor
      · intro hlen
        exfalso
        rw [List.length_cons] at hlen
        omega
      · intro hall
        exact absurd (hall x (List.mem_cons_self x xs)) hx

theorem updateFirst_eq_none (now id : String) (body : Obj) (store : List Obj)
    (h : ∀ i ∈ store, Obj.get i "_id" ≠ some (JValue.str id)) :
    updateFirst now id body store = none := by
  induction store with
  | nil => rfl
  | cons i rest ih =>
    have hi := h i (List.mem_cons_self i rest)
    rw [updateFirst, if_neg hi, ih (fun j hj => h j (List.mem_cons_of_mem i hj))]

theorem lookupStore_setStore (ms : List (String × List Obj)) (name : String)
    (items : List Obj) :
    lookupStore (setStore ms name items) name = some items := by
  simp [setStore, lookupStore]

/-! ## Concrete fixtures used by witnesses and counterexamples -/

def nameReqField : BackendField := ⟨"String", true, false, none⟩

def itemsSchema : List (String × BackendField) := [("name", nameReqField)]

def itemsCfg : EntityConfig :=
  ⟨some "/api/items", some ⟨some itemsSchema⟩, some ["name"]⟩

def usersSchema : List (String × BackendField) :=
  [("name", ⟨"String", true, false, none⟩),
   ("email", ⟨"String", true, false, none⟩),
   ("phone", ⟨"String", false, false, none⟩)]

def usersCfg : EntityConfig :=
  ⟨some "/api/users", some ⟨some usersSchema⟩, some ["name", "email", "phone"]⟩

def flagSchema : List (String × BackendField) :=
  [("flag", ⟨"Boolean", true, false, none⟩)]

def flagCfg : EntityConfig :=
  ⟨some "/api/flags", some ⟨some flagSchema⟩, some ["flag"]⟩

def ageSchema : List (String × BackendField) :=
  [("age", ⟨"Number", false, false, none⟩)]

def ageItem : Obj := [("age", JValue.num 42)]

/-- An entity configuration with no `route` member: invalid per the
part_001 schema-update validation. -/
def noRouteCfg : EntityConfig := ⟨none, some ⟨some []⟩, some []⟩

/-- A server state with one registered entity, as it stands before a
schema-update request arrives. -/
def st0 : ServerState :=
  ⟨[("users", usersCfg)], [("users", "/api/users")], []⟩

/-! ## Claim theorems -/

/-- C2: the field-kind resolvers of both model compilers map the
unrecognized kind "Email" silently to the `String` storage kind
instead of failing with `InvalidFieldKind`: the code contradicts the
spec's fail-fast policy for unknown field kinds. -/
theorem c2_silent_default :
    recognizedKinds.contains "Email" = false
    ∧ resolveFieldType "Email" = "String"
    ∧ resolveFieldType_p0 "Email" = "String" :=
  ⟨by decide, rfl, rfl⟩

/-- C8: two successive deletes of the same id return 200 then 404:
the first call succeeds exactly when a record with the id exists, the
second call always returns 404 (never a second 200), and after the
first call no record with the id remains in the collection. -/
theorem c8_delete_idempotent (store : List Obj) (id : String) :
    ((deleteCall store id).1 = 200 ↔
      ∃ i ∈ store, Obj.get i "_id" = some (JValue.str id))
    ∧ (deleteCall (deleteCall store id).2 id).1 = 404
    ∧ ∀ i ∈ (deleteCall store id).2, Obj.get i "_id" ≠ some (JValue.str id) := by
  have hp : ∀ i : Obj,
      (!(Obj.get i "_id" == some (JValue.str id))) = true ↔
        Obj.get i "_id" ≠ some (JValue.str id) := by
    intro i
    simp
  by_cases hall : ∀ i ∈ store, Obj.get i "_id" ≠ some (JValue.str id)
  · have hallp : ∀ i ∈ store,
        (!(Obj.get i "_id" == some (JValue.str id))) = true :=
      fun i hi => (hp i).mpr (hall i hi)
    have hlen := (length_filter_eq_length_iff
      (fun i => !(Obj.get i "_id" == some (JValue.str id))) store).mpr hallp
    have hd : deleteCall store id = (404, store) := by
      simp only [deleteCall]
      rw [if_pos hlen]
    rw [hd]
    refine ⟨?_, ?_, ?_⟩
    · constructor
      · intro h200
        exact absurd h200 (by simp)
      · rintro ⟨i, hi, hgi⟩
        exact absurd hgi (hall i hi)
    · rw [hd]
    · exact hall
  · push_neg at hall
    obtain ⟨j, hj, hgj⟩ := hall
    have hpj : (!(Obj.get j "_id" == some (JValue.str id))) = false := by
      simp [hgj]
    have hlen : ¬ ((store.filter
        (fun i => !(Obj.get i "_id" == some (JValue.str id)))).length = store.length) := by
      intro he
      have := (length_filter_eq_length_iff _ store).mp he j hj
      rw [hpj] at this
      exact absurd this (by simp)
    have hd : deleteCall store id =
        (200, store.filter (fun i => !(Obj.get i "_id" == some (JValue.str id)))) := by
      simp only [deleteCall]
      rw [if_neg hlen]
    have hallp2 : ∀ i ∈ store.filter
        (fun i => !(Obj.get i "_id" == some (JValue.str id))),
        (!(Obj.get i "_id" == some (JValue.str id))) = true :=
      fun i hi => (List.mem_filter.mp hi).2
    refine ⟨?_, ?_, ?_⟩
    · rw [hd]
      exact ⟨fun _ => ⟨j, hj, hgj⟩, fun _ => rfl⟩
    · rw [hd]
      have hlen2 := (length_filter_eq_length_iff
        (fun i => !(Obj.get i "_id" == some (JValue.str id))) _).mpr hallp2
      simp only [deleteCall]
      rw [if_pos hlen2]
    · rw [hd]
      exact fun i hi => (hp i).mp (hallp2 i hi)

/-- C8 witness: deleting the only record twice yields 200 then 404. -/
theorem c8_witness :
    (deleteCall [[("_id", JValue.str "a")]] "a").1 = 200
    ∧ (deleteCall (deleteCall [[("_id", JValue.str "a")]] "a").2 "a").1 = 404 :=
  ⟨(c8_delete_idempotent [[("_id", JValue.str "a")]] "a").1.mpr
      ⟨[("_id", JValue.str "a")], by simp, by simp [Obj.get]⟩,
   (c8_delete_idempotent [[("_id", JValue.str "a")]] "a").2.1⟩

/-- C1 counterexample: submitting a schema whose only entity has no
route to the `src/backend/server.js` update handler is *not* rejected:
the response reports success, the current schema document is replaced
and the active route set changes (the previous routes are dropped and
the invalid entity is silently skipped), contradicting the claimed
atomic rejection. -/
theorem c1_counterexample :
    (schemaUpdate_srv st0 (UpdateBody.record [("orders", noRouteCfg)])).2.success = true
    ∧ (schemaUpdate_srv st0 (UpdateBody.record [("orders", noRouteCfg)])).1.currentSchema
        ≠ st0.currentSchema
    ∧ (schemaUpdate_srv st0 (UpdateBody.record [("orders", noRouteCfg)])).1.activeRoutes
        ≠ st0.activeRoutes := by
  refine ⟨rfl, ?_, ?_⟩ <;> decide

/-- C1 (amended): the part_001 update handler does validate every
entity (route present, route starting with "/", backend schema and
frontend fields present) before any mutation, so a submission with at
least one invalid entity is rejected with 400 and the previous schema
document, route set and store all remain exactly in effect. -/
theorem c1_amended (now : String) (st : ServerState)
    (entries : List (String × EntityConfig))
    (h : ∃ e ∈ entries, validEntity_p1 e.2 = false) :
    schemaUpdate_p1 now st (UpdateBody.record entries) = (st, ⟨400, false⟩) := by
  have hall : entries.all (fun e => validEntity_p1 e.2) = false := by
    obtain ⟨e, he, hv⟩ := h
    cases hq : entries.all (fun e => validEntity_p1 e.2)
    · rfl
    · rw [List.all_eq_true] at hq
      rw [hq e he] at hv
      exact absurd hv (by simp)
  simp only [schemaUpdate_p1]
  rw [hall]
  simp

/-- C1 witness: a concrete invalid submission to the part_001 handler
leaves the concrete previous state untouched and returns 400. -/
theorem c1_witness :
    schemaUpdate_p1 "t1" st0 (UpdateBody.record [("orders", noRouteCfg)]) =
      (st0, ⟨400, false⟩) :=
  c1_amended "t1" st0 [("orders", noRouteCfg)] (by decide)

/-- C4 counterexample: a create call whose payload carries
`_id: "client-chosen"` succeeds with 201 and stores the record under
the *client's* id, not the server-generated one, because the body is
spread after the generated `_id` in the object literal. -/
theorem c4_counterexample :
    (createCall_p1 itemsCfg "item_gen_1" "t0" []
      [("_id", JValue.str "client-chosen"), ("name", JValue.str "widget")]).status = 201
    ∧ ((createCall_p1 itemsCfg "item_gen_1" "t0" []
        [("_id", JValue.str "client-chosen"), ("name", JValue.str "widget")]).store.map
          (fun i => Obj.get i "_id")) = [some (JValue.str "client-chosen")]
    ∧ ("client-chosen" : String) ≠ "item_gen_1" := by
  refine ⟨by decide, by decide, by decide⟩

/-- C4 (amended): `createdAt` and `updatedAt` of a created record are
always the server-assigned timestamp, whatever the payload contains;
the `_id` is the server-generated id only when the payload itself does
not supply an `_id` (a client-supplied `_id` overrides it). -/
theorem c4_amended (genId now : String) (body : Obj) :
    Obj.get (createItem genId now body) "createdAt" = some (JValue.str now)
    ∧ Obj.get (createItem genId now body) "updatedAt" = some (JValue.str now)
    ∧ (Obj.get body "_id" = none →
        Obj.get (createItem genId now body) "_id" = some (JValue.str genId)) := by
  have h1 : ("_id" : String) ≠ "createdAt" := by decide
  have h2 : ("_id" : String) ≠ "updatedAt" := by decide
  refine ⟨?_, ?_, ?_⟩
  · rw [createItem_get]
    simp
  · rw [createItem_get]
    simp
  · intro hb
    rw [createItem_get]
    simp [h1, h2, hb]

/-- C4 witness: with an empty payload the created record carries the
server-assigned timestamp and the server-generated id. -/
theorem c4_witness :
    Obj.get (createItem "g1" "t0" []) "createdAt" = some (JValue.str "t0")
    ∧ Obj.get (createItem "g1" "t0" []) "_id" = some (JValue.str "g1") :=
  ⟨(c4_amended "g1" "t0" []).1, (c4_amended "g1" "t0" []).2.2 rfl⟩

/-- C5 counterexample: updating record "a" with a payload that carries
`_id: "b"` and `createdAt: "HACK"` succeeds (200) and overwrites both
the record's id and its creation timestamp, because the payload is
spread over the old record; the claim says these fields are never
modified. -/
theorem c5_counterexample :
    (updateCall "t1"
      [[("_id", JValue.str "a"), ("createdAt", JValue.str "t0"),
        ("name", JValue.str "x")]] "a"
      [("_id", JValue.str "b"), ("createdAt", JValue.str "HACK")]).status = 200
    ∧ ((updateCall "t1"
        [[("_id", JValue.str "a"), ("createdAt", JValue.str "t0"),
          ("name", JValue.str "x")]] "a"
        [("_id", JValue.str "b"), ("createdAt", JValue.str "HACK")]).item.map
          (fun i => Obj.get i "createdAt")) = some (some (JValue.str "HACK"))
    ∧ ((updateCall "t1"
        [[("_id", JValue.str "a"), ("createdAt", JValue.str "t0"),
          ("name", JValue.str "x")]] "a"
        [("_id", JValue.str "b"), ("createdAt", JValue.str "HACK")]).item.map
          (fun i => Obj.get i "_id")) = some (some (JValue.str "b")) := by
  refine ⟨rfl, by decide, by decide⟩

/-- C5 (amended): an update on a non-existent id returns 404 and
leaves the store unchanged; an update on an existing record replaces
it by the shallow merge in which *every* submitted field (including
`_id` and `createdAt`, if submitted) overrides the old value, omitted
fields keep their prior value, and `updatedAt` is set to the
server-assigned timestamp regardless of the payload. -/
theorem c5_amended (now id : String) (store : List Obj) (body : Obj) :
    ((∀ i ∈ store, Obj.get i "_id" ≠ some (JValue.str id)) →
      updateCall now store id body = ⟨404, none, store⟩)
    ∧ ∀ old k, Obj.get (updateItem now old body) k =
        (if k = "updatedAt" then some (JValue.str now)
         else
           match Obj.get body k with
           | some v => some v
           | none => Obj.get old k) := by
  constructor
  · intro h
    simp only [updateCall]
    rw [updateFirst_eq_none now id body store h]
  · intro old k
    exact updateItem_get now old body k

/-- C5 witness: an update against an empty store returns 404 with the
store unchanged, and the merged record of a concrete update keeps an
omitted field while taking the submitted one. -/
theorem c5_witness :
    updateCall "t1" [] "a" [] = ⟨404, none, []⟩
    ∧ Obj.get (updateItem "t1" [("name", JValue.str "x"), ("age", JValue.num 3)]
        [("name", JValue.str "y")]) "age" = some (JValue.num 3) :=
  ⟨(c5_amended "t1" "a" [] []).1 (by simp),
   by
    rw [(c5_amended "t1" "a" [] [("name", JValue.str "y")]).2
      [("name", JValue.str "x"), ("age", JValue.num 3)] "age"]
    decide⟩

/-- C6 counterexample: the `src/backend/server.js` POST handler does
no required-field validation at all: creating against an entity whose
schema declares `name` required, with a payload omitting `name`,
returns 201 and appends the record to the store instead of failing
with a 400 ValidationError. -/
theorem c6_counterexample :
    ("name" ∈ requiredFieldsOf itemsSchema)
    ∧ Obj.get ([] : Obj) "name" = none
    ∧ (createCall_srv "gen1" "t0" [] []).status = 201
    ∧ (createCall_srv "gen1" "t0" [] []).store.length = 1 := by
  refine ⟨by decide, rfl, rfl, rfl⟩

/-- C6 (amended): the part_001 create handler does implement the
claim: when the payload omits a required field (other than the three
server-assigned ones), the call fails with 400, the error message
lists the missing required fields (each omitted required field is in
the list), and the store is unchanged. -/
theorem c6_amended (cfg : EntityConfig) (schema : List (String × BackendField))
    (genId now : String) (store : List Obj) (body : Obj) (f : String)
    (spec : BackendField)
    (hcfg : cfgSchemaOf cfg = some schema)
    (hf : (f, spec) ∈ schema) (hreq : spec.required = true)
    (hbody : Obj.get body f = none)
    (hid : f ≠ "_id") (hc : f ≠ "createdAt") (hu : f ≠ "updatedAt") :
    (createCall_p1 cfg genId now store body).status = 400
    ∧ f ∈ (createCall_p1 cfg genId now store body).missing
    ∧ (createCall_p1 cfg genId now store body).error =
        some (missingMsg ((requiredFieldsOf schema).filter
          (fun g => !truthyAt (createItem genId now body) g)))
    ∧ (createCall_p1 cfg genId now store body).store = store := by
  have hmem : f ∈ requiredFieldsOf schema := by
    unfold requiredFieldsOf
    exact List.mem_map.mpr ⟨(f, spec), List.mem_filter.mpr ⟨hf, by simp [hreq]⟩, rfl⟩
  have hnt : truthyAt (createItem genId now body) f = false := by
    unfold truthyAt
    rw [createItem_get]
    simp [hc, hu, hbody, hid]
  have hfm : f ∈ (requiredFieldsOf schema).filter
      (fun g => !truthyAt (createItem genId now body) g) :=
    List.mem_filter.mpr ⟨hmem, by simp [hnt]⟩
  have hlen : 0 < ((requiredFieldsOf schema).filter
      (fun g => !truthyAt (createItem genId now body) g)).length :=
    List.length_pos.mpr (List.ne_nil_of_mem hfm)
  simp only [createCall_p1, hcfg]
  rw [if_pos hlen]
  exact ⟨rfl, hfm, rfl, rfl⟩

/-- C6 witness: creating with an empty payload against the concrete
entity whose schema requires `name` yields 400, `name` among the
missing fields, and an unchanged store. -/
theorem c6_witness :
    (createCall_p1 itemsCfg "g1" "t0" [] []).status = 400
    ∧ "name" ∈ (createCall_p1 itemsCfg "g1" "t0" [] []).missing
    ∧ (createCall_p1 itemsCfg "g1" "t0" [] []).store = [] :=
  ⟨(c6_amended itemsCfg itemsSchema "g1" "t0" [] [] "name" nameReqField rfl
      (by decide) rfl rfl (by decide) (by decide) (by decide)).1,
   (c6_amended itemsCfg itemsSchema "g1" "t0" [] [] "name" nameReqField rfl
      (by decide) rfl rfl (by decide) (by decide) (by decide)).2.1,
   (c6_amended itemsCfg itemsSchema "g1" "t0" [] [] "name" nameReqField rfl
      (by decide) rfl rfl (by decide) (by decide) (by decide)).2.2.2⟩

/-- C10: the part_001 create handler tests required fields with
JavaScript truthiness (`!newItem[field]`), so a payload that supplies
a required field with a falsy value (false, 0 or the empty string) is
rejected with 400, the field is listed among the missing ones, and no
record is added, even though the field is present in the payload. -/
theorem c10_falsy_required (cfg : EntityConfig)
    (schema : List (String × BackendField)) (genId now : String)
    (store : List Obj) (body : Obj) (f : String) (spec : BackendField)
    (v : JValue)
    (hcfg : cfgSchemaOf cfg = some schema)
    (hf : (f, spec) ∈ schema) (hreq : spec.required = true)
    (hbody : Obj.get body f = some v) (hfalsy : JValue.truthy v = false)
    (hc : f ≠ "createdAt") (hu : f ≠ "updatedAt") :
    (createCall_p1 cfg genId now store body).status = 400
    ∧ f ∈ (createCall_p1 cfg genId now store body).missing
    ∧ (createCall_p1 cfg genId now store body).store = store := by
  have hmem : f ∈ requiredFieldsOf schema := by
    unfold requiredFieldsOf
    exact List.mem_map.mpr ⟨(f, spec), List.mem_filter.mpr ⟨hf, by simp [hreq]⟩, rfl⟩
  have hnt : truthyAt (createItem genId now body) f = false := by
    unfold truthyAt
    rw [createItem_get]
    simp [hc, hu, hbody, hfalsy]
  have hfm : f ∈ (requiredFieldsOf schema).filter
      (fun g => !truthyAt (createItem genId now body) g) :=
    List.mem_filter.mpr ⟨hmem, by simp [hnt]⟩
  have hlen : 0 < ((requiredFieldsOf schema).filter
      (fun g => !truthyAt (createItem genId now body) g)).length :=
    List.length_pos.mpr (List.ne_nil_of_mem hfm)
  simp only [createCall_p1, hcfg]
  rw [if_pos hlen]
  exact ⟨rfl, hfm, rfl⟩

/-- C10 witness: supplying the required boolean field `flag` as
`false` is rejected with 400, `flag` listed as missing, store
unchanged. -/
theorem c10_witness :
    (createCall_p1 flagCfg "g1" "t0" [] [("flag", JValue.bool false)]).status = 400
    ∧ "flag" ∈ (createCall_p1 flagCfg "g1" "t0" []
        [("flag", JValue.bool false)]).missing
    ∧ (createCall_p1 flagCfg "g1" "t0" [] [("flag", JValue.bool false)]).store = [] :=
  c10_falsy_required flagCfg flagSchema "g1" "t0" [] [("flag", JValue.bool false)]
    "flag" ⟨"Boolean", true, false, none⟩ (JValue.bool false) rfl (by decide) rfl
    (by decide) rfl (by decide) (by decide)

/-- C3 counterexample: against an entity whose only declared field
`age` has kind Number (so no text-kind field exists), the in-memory
list search for "42" *does* include the record whose `age` is the
number 42 — a non-text field's value causes the match, which the
claim rules out. -/
theorem c3_counterexample :
    stringFieldsOf ageSchema = []
    ∧ filterSearch_srv "42" [ageItem] = [ageItem]
    ∧ mongoQueryMatches ageSchema "zzz" ageItem = true := by
  refine ⟨by decide, by decide, by decide⟩

/-- C3 (amended): the Mongo list path searches exactly the
String-declared fields (a record matches iff some String-declared
field holds a string containing the term case-insensitively) —
provided the entity declares at least one String field, otherwise the
query is empty and every record matches; the in-memory list path of
`src/backend/server.js` instead matches the string rendering of
*every* field value, whatever its declared kind. -/
theorem c3_amended :
    (∀ (schema : List (String × BackendField)) (term : String) (item : Obj),
      term ≠ "" → stringFieldsOf schema ≠ [] →
      (mongoQueryMatches schema term item = true ↔
        ∃ f ∈ stringFieldsOf schema, ∃ s, Obj.get item f = some (JValue.str s)
          ∧ strContains (lowerStr s) (lowerStr term) = true))
    ∧ (∀ (term : String) (items : List Obj) (r : Obj), term ≠ "" →
      (r ∈ filterSearch_srv term items ↔
        r ∈ items ∧ matchesSearch_srv (lowerStr term) r = true)) := by
  constructor
  · intro schema term item hterm hsf
    have ht : (term == "") = false := by
      simpa using hterm
    have hpos : 0 < (stringFieldsOf schema).length := List.length_pos.mpr hsf
    simp only [mongoQueryMatches, ht, Bool.false_eq_true, if_false]
    rw [if_pos hpos, List.any_eq_true]
    constructor
    · rintro ⟨f, hf, hpred⟩
      refine ⟨f, hf, ?_⟩
      cases hg : Obj.get item f with
      | none => rw [hg] at hpred; simp at hpred
      | some v =>
        rw [hg] at hpred
        cases v with
        | str s => exact ⟨s, rfl, hpred⟩
        | num n => simp at hpred
        | bool b => simp at hpred
        | null => simp at hpred
    · rintro ⟨f, hf, s, hs, hc⟩
      refine ⟨f, hf, ?_⟩
      rw [hs]
      exact hc
  · intro term items r hterm
    have ht : (term == "") = false := by
      simpa using hterm
    simp only [filterSearch_srv, ht, Bool.false_eq_true, if_false]
    exact List.mem_filter

/-- C3 witness: the record whose `name` is "John" is found by the
Mongo search for "ohn" and by the memory search for "ohn". -/
theorem c3_witness :
    mongoQueryMatches usersSchema "ohn" [("name", JValue.str "John")] = true
    ∧ [("name", JValue.str "John")] ∈
        filterSearch_srv "ohn" [[("name", JValue.str "John")]] :=
  ⟨(c3_amended.1 usersSchema "ohn" [("name", JValue.str "John")]
      (by decide) (by decide)).mpr
    ⟨"name", by decide, "John", by decide, by decide⟩,
   (c3_amended.2 "ohn" [[("name", JValue.str "John")]]
      [("name", JValue.str "John")] (by decide)).mpr
    ⟨by simp, by decide⟩⟩

/-- Two records with equal `createdAt` whose ids are in descending
insertion order: fixtures for the sort-tie claim. -/
def itemB : Obj := [("_id", JValue.str "b"), ("createdAt", JValue.str "2024")]

def itemA : Obj := [("_id", JValue.str "a"), ("createdAt", JValue.str "2024")]

/-- C7 counterexample: under the default sort (`createdAt`
descending) two records with equal `createdAt` keep their insertion
order; with ids inserted as "b" then "a" the result stays
["b", "a"] — the tie is *not* broken by id ascending. -/
theorem c7_counterexample :
    sortKeyVal "createdAt" itemB = sortKeyVal "createdAt" itemA
    ∧ sortItems "createdAt" "desc" [itemB, itemA] = [itemB, itemA]
    ∧ (sortItems "createdAt" "desc" [itemB, itemA]).map (fun i => Obj.get i "_id")
        ≠ [some (JValue.str "a"), some (JValue.str "b")] := by
  refine ⟨by decide, by decide, by decide⟩

/-- C7 (amended): part_001's in-memory list sort is a stable sort by
the comparator on the `sortBy` field (falsy or missing keys compare
as the empty string): the output is a rearrangement that is sorted
for the comparator, has the same length, and keeps records with equal
sort keys in their original relative order — ties are left in
insertion order, with no id tiebreaker. -/
theorem c7_amended (sortBy sortOrder : String) (items : List Obj) (v : JValue) :
    (sortItems sortBy sortOrder items).filter
        (fun r => decide (sortKeyVal sortBy r = v)) =
      items.filter (fun r => decide (sortKeyVal sortBy r = v))
    ∧ List.Chain' (fun a b => itemCompare sortBy sortOrder a b ≤ 0)
        (sortItems sortBy sortOrder items)
    ∧ (sortItems sortBy sortOrder items).length = items.length := by
  unfold sortItems
  refine ⟨?_, ?_, stableSort_length _ _⟩
  · apply stableSort_filter
    intro a b ha hb
    have ha2 : sortKeyVal sortBy a = v := of_decide_eq_true ha
    have hb2 : sortKeyVal sortBy b = v := of_decide_eq_true hb
    exact le_of_eq
      (itemCompare_eq_zero_of_key_eq sortBy sortOrder a b (ha2.trans hb2.symm))
  · exact chain'_stableSort _ _ (fun a b h => itemCompare_asymm sortBy sortOrder a b h)

/-- C9: when part_001's route registration processes an entity with a
truthy route whose in-memory collection is absent or empty, it seeds
exactly three sample records into that collection, so the first list
call with default parameters reports a total count of 3, not 0. -/
theorem c9_seeding (now name : String) (cfg : EntityConfig) (acc : RegAcc)
    (hroute : routeTruthy cfg.route = true)
    (hempty : lookupStore acc.ms name = none ∨ lookupStore acc.ms name = some []) :
    lookupStore (registerStep_p1 now acc (name, cfg)).ms name
      = some (samples name cfg now)
    ∧ (samples name cfg now).length = 3
    ∧ (listCall_p1 (samples name cfg now) defaultListParams).pag.total = 3 := by
  have hlen3 : (samples name cfg now).length = 3 := by
    unfold samples
    cases cfgSchemaOf cfg <;> simp
  refine ⟨?_, hlen3, ?_⟩
  · simp only [registerStep_p1, hroute, if_true]
    rcases hempty with h | h <;>
    · rw [h]
      show lookupStore (setStore acc.ms name (samples name cfg now)) name
        = some (samples name cfg now)
      exact lookupStore_setStore acc.ms name (samples name cfg now)
  · have hf : filterSearch_p1 "" (samples name cfg now) = samples name cfg now := by
      simp [filterSearch_p1]
    show (sortItems "createdAt" "desc"
      (filterSearch_p1 "" (samples name cfg now))).length = 3
    rw [hf]
    unfold sortItems
    rw [stableSort_length]
    exact hlen3

/-- C9 witness: registering the concrete `users` entity against an
empty store seeds its three sample records, and the default list call
over them reports total 3. -/
theorem c9_witness :
    lookupStore (registerStep_p1 "t0" ⟨[], []⟩ ("users", usersCfg)).ms "users"
      = some (samples "users" usersCfg "t0")
    ∧ (samples "users" usersCfg "t0").length = 3
    ∧ (listCall_p1 (samples "users" usersCfg "t0") defaultListParams).pag.total = 3 :=
  c9_seeding "t0" "users" usersCfg ⟨[], []⟩ (by decide) (Or.inl rfl)
